import Mathlib

set_option maxHeartbeats 1000000

attribute [local semireducible] Rat.add Rat.sub Rat.mul Rat.inv Rat.ofScientific

/-! A verification development for the WEATHER-UPDATE terminal weather client:
a shallow embedding of its data model (weather_data.py), of the JSON parsing
and forecast aggregation (weather_api.py), and of the temperature-trend chart
computation (weather_display.py), together with proofs of the documented
properties. Numeric JSON values are modelled as rationals; fallible code paths
(a missing key raising KeyError, an access raising in the try block) are
modelled by functions returning Option, with none standing for the caught
exception that makes the source return None. -/

/-- Python int() on a rational number: truncation toward zero. -/
def pyInt (q : ℚ) : ℤ := if 0 ≤ q then q.floor else q.ceil

/-- Python round() on a rational number: nearest integer, ties to even.
Modelled from the spec: the source never calls round; this definition only
serves to compare the formula stated in the spec with the truncation the
source performs. -/
def pyRound (q : ℚ) : ℤ :=
  if q - (q.floor : ℚ) < 1/2 then q.floor
  else if 1/2 < q - (q.floor : ℚ) then q.floor + 1
  else if q.floor % 2 = 0 then q.floor else q.floor + 1

/-- Python comparison of two strings as lists of characters: lexicographic by
code point, with a strict prefix smaller than the longer string. -/
def strLtB : List Char → List Char → Bool
  | [], [] => false
  | [], _ :: _ => true
  | _ :: _, [] => false
  | a :: as, b :: bs =>
    if a.toNat < b.toNat then true
    else if b.toNat < a.toNat then false
    else strLtB as bs

/-- Python s < t on strings. -/
def strLt (s t : String) : Bool := strLtB s.data t.data

/-- Python str.capitalize(): first character upper-cased, the rest lower-cased
(adequate here for the ASCII description strings the code handles). -/
def pyCapitalize (s : String) : String :=
  match s.data with
  | [] => ""
  | c :: cs => String.mk (c.toUpper :: cs.map Char.toLower)

/-- Python "s".split(" ")[0]: the prefix of the string before the first space. -/
def dateOf (dt_txt : String) : String :=
  String.mk (dt_txt.data.takeWhile (fun c => c != ' '))

/-- JSON values, as far as the client inspects them. -/
inductive Json where
  | str : String → Json
  | num : ℚ → Json
  | obj : List (String × Json) → Json
  | arr : List Json → Json

/-- Dictionary access data[k]: some value when the key is present in an
object, none for the KeyError (or TypeError on a non-object) the source
catches. -/
def Json.get? (j : Json) (k : String) : Option Json :=
  match j with
  | .obj kvs => kvs.lookup k
  | _ => none

/-- List indexing data[i]. -/
def Json.idx? (j : Json) (i : ℕ) : Option Json :=
  match j with
  | .arr l => l[i]?
  | _ => none

/-- Coerce a JSON value to a string, as the source does implicitly by calling
string methods on it. -/
def Json.asStr? : Json → Option String
  | .str s => some s
  | _ => none

/-- Coerce a JSON value to a number, as the source does implicitly by doing
arithmetic on it. -/
def Json.asNum? : Json → Option ℚ
  | .num q => some q
  | _ => none

/-- Coerce a JSON value to an array. -/
def Json.asArr? : Json → Option (List Json)
  | .arr l => some l
  | _ => none

/-- weather_data.WeatherData: current conditions for a location. -/
structure WeatherData where
  city : String
  country : String
  temperature : ℚ
  feels_like : ℚ
  humidity : ℚ
  description : String
  icon : String
  wind_speed : ℚ
  pressure : ℚ
  deriving DecidableEq

/-- weather_data.DailyForecast: aggregated forecast for a single day. -/
structure DailyForecast where
  date : String
  min_temp : ℚ
  max_temp : ℚ
  avg_temp : ℚ
  description : String
  icon : String
  deriving DecidableEq

/-- weather_data.ForecastData: a collection of daily forecasts. -/
structure ForecastData where
  city : String
  country : String
  daily_forecasts : List DailyForecast
  deriving DecidableEq

/-- Map an Option-valued function over a list, failing when any element
fails (the shape of a Python loop whose body may raise inside a try block). -/
def traverseOption {α β : Type} (f : α → Option β) : List α → Option (List β)
  | [] => some []
  | x :: xs => (f x).bind fun y => (traverseOption f xs).bind fun ys => some (y :: ys)

/-- Sum of a list of rationals divided bounds helper: smallest element reached
by folding min, mirroring Python min() over a nonempty list. -/
def foldMin (x : ℚ) (xs : List ℚ) : ℚ := xs.foldl min x

/-- Largest element by folding max, mirroring Python max() over a nonempty
list. -/
def foldMax (x : ℚ) (xs : List ℚ) : ℚ := xs.foldl max x

/-- Python min() over a list: defined on nonempty lists, none on [] where the
source would raise ValueError. -/
def listMin? : List ℚ → Option ℚ
  | [] => none
  | x :: xs => some (foldMin x xs)

/-- Python max() over a list: defined on nonempty lists, none on []. -/
def listMax? : List ℚ → Option ℚ
  | [] => none
  | x :: xs => some (foldMax x xs)

/-- Total version of min used where the source only ever passes nonempty
lists (the default is never observable in a successful parse). -/
def listMin (l : List ℚ) : ℚ := (listMin? l).getD 0

/-- Total version of max used where the source only ever passes nonempty
lists. -/
def listMax (l : List ℚ) : ℚ := (listMax? l).getD 0

/-- Engine of Counter(l).most_common(1)[0][0]: scan the remaining samples,
replacing the current best only on a strictly larger count, so a tie keeps
the earlier (first-encountered) value, exactly as CPython max() over the
insertion-ordered Counter items does. -/
def mostCommonAux (l : List String) : List String → String → String
  | [], best => best
  | x :: xs, best =>
    if l.count best < l.count x then mostCommonAux l xs x
    else mostCommonAux l xs best

/-- Counter(l).most_common(1)[0][0]: the first-encountered value of maximal
multiplicity; none on the empty list, where the source indexing [0] would
raise. -/
def most_common : List String → Option String
  | [] => none
  | x :: xs => some (mostCommonAux (x :: xs) xs x)

/-- Field path r["main"]["temp"] of one raw 3-hour sample. -/
def readingTemp (r : Json) : Option ℚ :=
  ((r.get? "main").bind fun m => m.get? "temp").bind Json.asNum?

/-- Field path r["weather"][0]["description"] of one raw sample. -/
def readingDescription (r : Json) : Option String :=
  (((r.get? "weather").bind fun w => w.idx? 0).bind fun w0 =>
    w0.get? "description").bind Json.asStr?

/-- Field path r["weather"][0]["icon"] of one raw sample. -/
def readingIcon (r : Json) : Option String :=
  (((r.get? "weather").bind fun w => w.idx? 0).bind fun w0 =>
    w0.get? "icon").bind Json.asStr?

/-- One step of the grouping dict forecast_by_day: append the item to its
date's bucket, or create a fresh bucket at the end (Python dicts preserve
insertion order). -/
def insertGrouped (date : String) (item : Json) :
    List (String × List Json) → List (String × List Json)
  | [] => [(date, [item])]
  | (k, rs) :: rest =>
    if k = date then (k, rs ++ [item]) :: rest
    else (k, rs) :: insertGrouped date item rest

/-- The grouping loop of get_five_day_forecast (weather_api.py lines 99-103):
group the raw samples by the date part of dt_txt, failing when dt_txt is
absent or not a string. -/
def groupByDate : List Json → List (String × List Json) →
    Option (List (String × List Json))
  | [], acc => some acc
  | item :: rest, acc =>
    ((item.get? "dt_txt").bind Json.asStr?).bind fun dtxt =>
      groupByDate rest (insertGrouped (dateOf dtxt) item acc)

/-- The aggregation body of get_five_day_forecast (weather_api.py lines
105-122) for one date group: min/max/mean of the temperatures, mode of
descriptions (capitalized) and of icons. -/
def aggregateGroup (date_str : String) (readings : List Json) :
    Option DailyForecast :=
  (traverseOption readingTemp readings).bind fun temps =>
  (traverseOption readingDescription readings).bind fun descriptions =>
  (traverseOption readingIcon readings).bind fun icons =>
  (most_common descriptions).bind fun mcd =>
  (most_common icons).bind fun mci =>
  some { date := date_str
         min_temp := listMin temps
         max_temp := listMax temps
         avg_temp := temps.sum / (temps.length : ℚ)
         description := pyCapitalize mcd
         icon := mci }

/-- Stable ascending insertion by date string, modelling one placement of
list.sort(key=lambda x: x.date). -/
def insertByDate (d : DailyForecast) : List DailyForecast → List DailyForecast
  | [] => [d]
  | x :: xs => if strLt d.date x.date then d :: x :: xs else x :: insertByDate d xs

/-- daily_forecasts.sort(key=lambda x: x.date): sort the aggregated days
ascending by their date string. -/
def sortByDate : List DailyForecast → List DailyForecast
  | [] => []
  | x :: xs => insertByDate x (sortByDate xs)

/-- get_five_day_forecast's parsing of a successful JSON response
(weather_api.py lines 91-138): group the samples by date, aggregate each
group, sort by date, and read the city fields; none models every caught
exception path that makes the source return None. -/
def parseForecast (data : Json) : Option ForecastData :=
  ((data.get? "list").bind Json.asArr?).bind fun items =>
  (groupByDate items []).bind fun groups =>
  (traverseOption (fun g => aggregateGroup g.1 g.2) groups).bind fun daily =>
  (((data.get? "city").bind fun c => c.get? "name").bind Json.asStr?).bind fun city =>
  (((data.get? "city").bind fun c => c.get? "country").bind Json.asStr?).bind fun country =>
  some { city := city, country := country, daily_forecasts := sortByDate daily }

/-- get_current_weather's parsing of a successful JSON response
(weather_api.py lines 61-78), with the field accesses in the source's
evaluation order; none models the caught KeyError paths. -/
def parseCurrentWeather (data : Json) : Option WeatherData :=
  ((data.get? "name").bind Json.asStr?).bind fun city =>
  (((data.get? "sys").bind fun s => s.get? "country").bind Json.asStr?).bind fun country =>
  (data.get? "main").bind fun mainJ =>
  ((mainJ.get? "temp").bind Json.asNum?).bind fun temperature =>
  ((mainJ.get? "feels_like").bind Json.asNum?).bind fun feels_like =>
  ((mainJ.get? "humidity").bind Json.asNum?).bind fun humidity =>
  ((data.get? "weather").bind fun w => w.idx? 0).bind fun w0 =>
  ((w0.get? "description").bind Json.asStr?).bind fun descr =>
  ((w0.get? "icon").bind Json.asStr?).bind fun icon =>
  (((data.get? "wind").bind fun w => w.get? "speed").bind Json.asNum?).bind fun wind_speed =>
  ((mainJ.get? "pressure").bind Json.asNum?).bind fun pressure =>
  some { city := city, country := country, temperature := temperature
         feels_like := feels_like, humidity := humidity
         description := pyCapitalize descr, icon := icon
         wind_speed := wind_speed, pressure := pressure }

/-- WeatherDisplay.WEATHER_ICONS: the fixed icon-code-to-glyph mapping. -/
def WEATHER_ICONS : List (String × String) :=
  [("01d", "☀️"), ("01n", "🌙"),
   ("02d", "🌤️"), ("02n", "☁️"),
   ("03d", "☁️"), ("03n", "☁️"),
   ("04d", "☁️"), ("04n", "☁️"),
   ("09d", "🌧️"), ("09n", "🌧️"),
   ("10d", "🌦️"), ("10n", "🌧️"),
   ("11d", "⛈️"), ("11n", "⛈️"),
   ("13d", "❄️"), ("13n", "❄️"),
   ("50d", "🌫️"), ("50n", "🌫️"),
   ("unknown", "❓")]

/-- WeatherDisplay._get_weather_emoji: dict .get with the "unknown" entry as
the default for unrecognized codes. -/
def get_weather_emoji (icon_code : String) : String :=
  match WEATHER_ICONS.lookup icon_code with
  | some e => e
  | none => (WEATHER_ICONS.lookup "unknown").getD ""

/-- chart_height constant of display_forecast. -/
def chart_height : ℕ := 8

/-- chart_width constant of display_forecast. -/
def chart_width : ℕ := 50

/-- Row index of one day's point (weather_display.py lines 138-139):
int-truncate the linear scaling of avg_temp and clamp into
[0, chart_height - 1]; row 0 is the coldest (bottom) row. -/
def scaled_temp (avg_temp min_temp_all temp_range : ℚ) : ℤ :=
  let s := pyInt ((avg_temp - min_temp_all) / temp_range * ((chart_height : ℚ) - 1))
  max 0 (min s ((chart_height : ℤ) - 1))

/-- Column index of day i out of n (weather_display.py lines 143-144):
int-truncate the linear spacing when n > 1, else 0, then clamp into
[0, chart_width - 1]. -/
def column_pos (i n : ℕ) : ℤ :=
  let c : ℤ :=
    if 1 < n then pyInt ((i : ℚ) / ((n : ℚ) - 1) * ((chart_width : ℚ) - 1))
    else 0
  max 0 (min c ((chart_width : ℤ) - 1))

/-- Placement of one day's marker in the trend chart. -/
structure ChartMark where
  row : ℤ
  col : ℤ
  deriving DecidableEq

/-- The chart computation of display_forecast (weather_display.py lines
90-91 and 129-150): global min over min_temps and max over max_temps (none
on an empty forecast, where the source min()/max() raise ValueError), the
temp_range = 1 substitution when the range is zero, and one scaled
(row, column) mark per day. -/
def displayChartData (fd : ForecastData) : Option (List ChartMark) :=
  (listMin? (fd.daily_forecasts.map (fun d => d.min_temp))).bind fun min_temp_all =>
  (listMax? (fd.daily_forecasts.map (fun d => d.max_temp))).bind fun max_temp_all =>
  let temp_range := max_temp_all - min_temp_all
  let temp_range := if temp_range = 0 then 1 else temp_range
  some (fd.daily_forecasts.enum.map fun p =>
    { row := scaled_temp p.2.avg_temp min_temp_all temp_range
      col := column_pos p.1 fd.daily_forecasts.length })

/-- Marker glyph placed in the chart grid. -/
def markerChar : Char := '●'

/-- The in-place update of one chart line (weather_display.py lines
148-150), with the printed row inversion chart_height - 1 - scaled_temp. -/
def setMark (lines : List String) (mk : ChartMark) : List String :=
  let rowIdx := ((chart_height : ℤ) - 1 - mk.row).toNat
  let line := lines.getD rowIdx ""
  lines.set rowIdx (String.mk (line.data.set mk.col.toNat markerChar))

/-- The final chart grid: blank lines with every day's marker written in
sequence order (last writer wins on collisions). -/
def chartLines (marks : List ChartMark) : List String :=
  marks.foldl setMark
    (List.replicate chart_height (String.mk (List.replicate chart_width ' ')))

/-- Shape of one raw 3-hour sample in the forecast response, used to build
concrete test inputs. -/
def mkReadingJson (dt_txt : String) (temp : ℚ) (descr icon : String) : Json :=
  Json.obj
    [("dt_txt", Json.str dt_txt),
     ("main", Json.obj [("temp", Json.num temp)]),
     ("weather", Json.arr
       [Json.obj [("description", Json.str descr), ("icon", Json.str icon)]])]

/-- Concrete successful forecast response with two dates arriving out of
order, exercising grouping and the sort. -/
def jsonForecastEx : Json :=
  Json.obj
    [("city", Json.obj [("name", Json.str "Paris"), ("country", Json.str "FR")]),
     ("list", Json.arr
       [mkReadingJson "2024-01-02 00:00:00" 10 "rainy" "10d",
        mkReadingJson "2024-01-01 12:00:00" 20 "sunny" "01d"])]

/-- The ForecastData value that parsing jsonForecastEx produces. -/
def fdEx : ForecastData :=
  { city := "Paris", country := "FR"
    daily_forecasts :=
      [{ date := "2024-01-01", min_temp := 20, max_temp := 20, avg_temp := 20
         description := "Sunny", icon := "01d" },
       { date := "2024-01-02", min_temp := 10, max_temp := 10, avg_temp := 10
         description := "Rainy", icon := "10d" }] }

/-- The first day of fdEx. -/
def dayEx : DailyForecast :=
  { date := "2024-01-01", min_temp := 20, max_temp := 20, avg_temp := 20
    description := "Sunny", icon := "01d" }

/-- A "main" object with no "temp" key. -/
def mainNoTemp : Json :=
  Json.obj [("feels_like", Json.num 5), ("humidity", Json.num 80),
            ("pressure", Json.num 1012)]

/-- Concrete otherwise-well-formed current-weather response whose main.temp
field is absent. -/
def jsonCurrentMissingTemp : Json :=
  Json.obj
    [("name", Json.str "Paris"),
     ("sys", Json.obj [("country", Json.str "FR")]),
     ("main", mainNoTemp),
     ("weather", Json.arr
       [Json.obj [("description", Json.str "clear sky"), ("icon", Json.str "01d")]]),
     ("wind", Json.obj [("speed", Json.num 3)])]

/-- Concrete forecast response whose single sample lacks main.temp. -/
def jsonForecastMissingTemp : Json :=
  Json.obj
    [("city", Json.obj [("name", Json.str "Paris"), ("country", Json.str "FR")]),
     ("list", Json.arr
       [Json.obj
         [("dt_txt", Json.str "2024-01-01 12:00:00"),
          ("main", Json.obj [("feels_like", Json.num 5)]),
          ("weather", Json.arr
            [Json.obj [("description", Json.str "sunny"), ("icon", Json.str "01d")]])]])]

/-- Concrete forecast whose days all carry the same temperature. -/
def fdFlat : ForecastData :=
  { city := "Oslo", country := "NO"
    daily_forecasts :=
      [{ date := "2024-01-01", min_temp := 10, max_temp := 10, avg_temp := 10
         description := "Sunny", icon := "01d" },
       { date := "2024-01-02", min_temp := 10, max_temp := 10, avg_temp := 10
         description := "Cloudy", icon := "03d" }] }

/-- Concrete forecast with an empty daily_forecasts list. -/
def fdEmpty : ForecastData :=
  { city := "Nowhere", country := "XX", daily_forecasts := [] }

/-- Ascending-by-date relation the sort establishes: the later element is not
smaller than the earlier one. -/
def dateLe (a b : DailyForecast) : Prop := strLt b.date a.date = false

/-! Order facts about the string comparison. -/

/-- The string comparison is irreflexive. -/
theorem strLtB_irrefl : ∀ l : List Char, strLtB l l = false := by
  intro l
  induction l with
  | nil => rfl
  | cons x xs ih => simp [strLtB, ih]

/-- Two lists neither of which is smaller than the other are equal. -/
theorem strLtB_antisymm : ∀ a b : List Char,
    strLtB a b = false → strLtB b a = false → a = b := by
  intro a
  induction a with
  | nil =>
    intro b hab _
    cases b with
    | nil => rfl
    | cons y ys => exact absurd hab (by simp [strLtB])
  | cons x xs ih =>
    intro b hab hba
    cases b with
    | nil => exact absurd hba (by simp [strLtB])
    | cons y ys =>
      simp only [strLtB] at hab hba
      by_cases h1 : x.toNat < y.toNat
      · simp [h1] at hab
      · by_cases h2 : y.toNat < x.toNat
        · simp [h1, h2] at hab hba
        · simp [h1, h2] at hab hba
          have hxy : x = y := by
            have h3 : x.toNat = y.toNat := by omega
            exact Char.ext (UInt32.toNat.inj h3)
          rw [hxy, ih ys hab hba]

/-- The string comparison is transitive. -/
theorem strLtB_trans : ∀ a b c : List Char,
    strLtB a b = true → strLtB b c = true → strLtB a c = true := by
  intro a
  induction a with
  | nil =>
    intro b c hab hbc
    cases b with
    | nil => exact absurd hab (by simp [strLtB])
    | cons y ys =>
      cases c with
      | nil => exact absurd hbc (by simp [strLtB])
      | cons z zs => rfl
  | cons x xs ih =>
    intro b c hab hbc
    cases b with
    | nil => exact absurd hab (by simp [strLtB])
    | cons y ys =>
      cases c with
      | nil => exact absurd hbc (by simp [strLtB])
      | cons z zs =>
        simp only [strLtB] at hab hbc ⊢
        by_cases h1 : x.toNat < y.toNat
        · by_cases h3 : y.toNat < z.toNat
          · simp [show x.toNat < z.toNat by omega]
          · by_cases h4 : z.toNat < y.toNat
            · simp [h3, h4] at hbc
            · simp [show x.toNat < z.toNat by omega]
        · by_cases h2 : y.toNat < x.toNat
          · simp [h1, h2] at hab
          · simp [h1, h2] at hab
            by_cases h3 : y.toNat < z.toNat
            · simp [show x.toNat < z.toNat by omega]
            · by_cases h4 : z.toNat < y.toNat
              · simp [h3, h4] at hbc
              · simp [h3, h4] at hbc
                simp [show ¬ x.toNat < z.toNat by omega,
                      show ¬ z.toNat < x.toNat by omega]
                exact ih ys zs hab hbc

/-- A smaller string is not also larger. -/
theorem strLtB_asymm (a b : List Char) (h : strLtB a b = true) :
    strLtB b a = false := by
  cases hba : strLtB b a with
  | false => rfl
  | true => exact absurd (strLtB_trans a b a h hba) (by simp [strLtB_irrefl])

/-- A string neither above nor equal to another is strictly below it. -/
theorem strLt_true_of (s t : String) (h1 : strLt t s = false) (h2 : s ≠ t) :
    strLt s t = true := by
  cases h : strLt s t with
  | true => rfl
  | false =>
    exact absurd (String.ext (strLtB_antisymm s.data t.data h h1)) h2

/-! Facts about min, max and the arithmetic mean. -/

/-- The folded min is below every element of the nonempty list it ranges
over. -/
theorem foldMin_le : ∀ (xs : List ℚ) (x y : ℚ), y ∈ x :: xs → foldMin x xs ≤ y := by
  intro xs
  induction xs with
  | nil =>
    intro x y hy
    rcases List.mem_cons.mp hy with rfl | hy2
    · exact le_refl _
    · exact absurd hy2 (List.not_mem_nil _)
  | cons z zs ih =>
    intro x y hy
    have hstep : foldMin x (z :: zs) = foldMin (min x z) zs := rfl
    have hhead : foldMin (min x z) zs ≤ min x z :=
      ih (min x z) (min x z) (List.mem_cons_self _ _)
    rcases List.mem_cons.mp hy with rfl | hy2
    · exact hstep ▸ hhead.trans (min_le_left _ _)
    · rcases List.mem_cons.mp hy2 with rfl | hy3
      · exact hstep ▸ hhead.trans (min_le_right _ _)
      · exact hstep ▸ ih (min x z) y (List.mem_cons_of_mem _ hy3)

/-- The folded max is above every element of the nonempty list it ranges
over. -/
theorem le_foldMax : ∀ (xs : List ℚ) (x y : ℚ), y ∈ x :: xs → y ≤ foldMax x xs := by
  intro xs
  induction xs with
  | nil =>
    intro x y hy
    rcases List.mem_cons.mp hy with rfl | hy2
    · exact le_refl _
    · exact absurd hy2 (List.not_mem_nil _)
  | cons z zs ih =>
    intro x y hy
    have hstep : foldMax x (z :: zs) = foldMax (max x z) zs := rfl
    have hhead : max x z ≤ foldMax (max x z) zs :=
      ih (max x z) (max x z) (List.mem_cons_self _ _)
    rcases List.mem_cons.mp hy with rfl | hy2
    · exact hstep ▸ (le_max_left _ _).trans hhead
    · rcases List.mem_cons.mp hy2 with rfl | hy3
      · exact hstep ▸ (le_max_right _ _).trans hhead
      · exact hstep ▸ ih (max x z) y (List.mem_cons_of_mem _ hy3)

/-- A lower bound on all elements gives a lower bound on the sum. -/
theorem mul_length_le_sum : ∀ (l : List ℚ) (c : ℚ),
    (∀ x ∈ l, c ≤ x) → c * l.length ≤ l.sum := by
  intro l
  induction l with
  | nil => intro c _; simp
  | cons x xs ih =>
    intro c h
    have hx : c ≤ x := h x (List.mem_cons_self _ _)
    have hxs := ih c (fun y hy => h y (List.mem_cons_of_mem _ hy))
    simp only [List.sum_cons, List.length_cons]
    push_cast
    nlinarith [hxs, hx]

/-- An upper bound on all elements gives an upper bound on the sum. -/
theorem sum_le_mul_length : ∀ (l : List ℚ) (c : ℚ),
    (∀ x ∈ l, x ≤ c) → l.sum ≤ c * l.length := by
  intro l
  induction l with
  | nil => intro c _; simp
  | cons x xs ih =>
    intro c h
    have hx : x ≤ c := h x (List.mem_cons_self _ _)
    have hxs := ih c (fun y hy => h y (List.mem_cons_of_mem _ hy))
    simp only [List.sum_cons, List.length_cons]
    push_cast
    nlinarith [hxs, hx]

/-- The arithmetic mean of a nonempty list lies between its min and its
max. -/
theorem avg_bounds (l : List ℚ) (hne : l ≠ []) :
    listMin l ≤ l.sum / l.length ∧ l.sum / l.length ≤ listMax l := by
  obtain ⟨x, xs, rfl⟩ := List.exists_cons_of_ne_nil hne
  have hlen : (0 : ℚ) < ((x :: xs).length : ℚ) := by
    exact_mod_cast Nat.succ_pos xs.length
  constructor
  · rw [le_div_iff₀ hlen]
    exact mul_length_le_sum _ _ (fun y hy => foldMin_le xs x y hy)
  · rw [div_le_iff₀ hlen]
    exact sum_le_mul_length _ _ (fun y hy => le_foldMax xs x y hy)

/-- A successful listMin? is a lower bound for the list. -/
theorem listMin?_le (l : List ℚ) (m : ℚ) (h : listMin? l = some m) :
    ∀ x ∈ l, m ≤ x := by
  cases l with
  | nil => cases h
  | cons x xs =>
    obtain rfl : foldMin x xs = m := Option.some.inj h
    exact fun y hy => foldMin_le xs x y hy

/-- A successful listMax? is an upper bound for the list. -/
theorem le_listMax? (l : List ℚ) (m : ℚ) (h : listMax? l = some m) :
    ∀ x ∈ l, x ≤ m := by
  cases l with
  | nil => cases h
  | cons x xs =>
    obtain rfl : foldMax x xs = m := Option.some.inj h
    exact fun y hy => le_foldMax xs x y hy

/-! Facts about traverseOption. -/

/-- A successful traversal preserves length. -/
theorem traverseOption_length {α β : Type} (f : α → Option β) :
    ∀ (l : List α) (res : List β), traverseOption f l = some res →
      res.length = l.length := by
  intro l
  induction l with
  | nil =>
    intro res h
    obtain rfl : ([] : List β) = res := Option.some.inj h
    rfl
  | cons x xs ih =>
    intro res h
    simp only [traverseOption, Option.bind_eq_some] at h
    obtain ⟨y, _, ys, hys, heq⟩ := h
    obtain rfl : y :: ys = res := Option.some.inj heq
    simp [ih ys hys]

/-- Every element of a successful traversal comes from some source
element. -/
theorem traverseOption_mem {α β : Type} (f : α → Option β) :
    ∀ (l : List α) (res : List β), traverseOption f l = some res →
      ∀ b ∈ res, ∃ a ∈ l, f a = some b := by
  intro l
  induction l with
  | nil =>
    intro res h b hb
    obtain rfl : ([] : List β) = res := Option.some.inj h
    exact absurd hb (List.not_mem_nil _)
  | cons x xs ih =>
    intro res h b hb
    simp only [traverseOption, Option.bind_eq_some] at h
    obtain ⟨y, hy, ys, hys, heq⟩ := h
    obtain rfl : y :: ys = res := Option.some.inj heq
    rcases List.mem_cons.mp hb with rfl | hb2
    · exact ⟨x, List.mem_cons_self _ _, hy⟩
    · obtain ⟨a, ha, hfa⟩ := ih ys hys b hb2
      exact ⟨a, List.mem_cons_of_mem _ ha, hfa⟩

/-- A successful traversal maps a projection of the results to a projection
of the sources, when the two projections agree on every success. -/
theorem traverseOption_map_eq {α β γ : Type} (f : α → Option β)
    (g : β → γ) (gs : α → γ) (hfg : ∀ a b, f a = some b → g b = gs a) :
    ∀ (l : List α) (res : List β), traverseOption f l = some res →
      res.map g = l.map gs := by
  intro l
  induction l with
  | nil =>
    intro res h
    obtain rfl : ([] : List β) = res := Option.some.inj h
    rfl
  | cons x xs ih =>
    intro res h
    simp only [traverseOption, Option.bind_eq_some] at h
    obtain ⟨y, hy, ys, hys, heq⟩ := h
    obtain rfl : y :: ys = res := Option.some.inj heq
    simp [hfg x y hy, ih ys hys]

/-! Facts about the date grouping. -/

/-- Inserting an item either leaves the key sequence unchanged or appends the
new date at the end. -/
theorem insertGrouped_keys (date : String) (item : Json) :
    ∀ acc : List (String × List Json),
    (insertGrouped date item acc).map Prod.fst =
      if date ∈ acc.map Prod.fst then acc.map Prod.fst
      else acc.map Prod.fst ++ [date] := by
  intro acc
  induction acc with
  | nil => simp [insertGrouped]
  | cons p rest ih =>
    obtain ⟨k, rs⟩ := p
    by_cases hk : k = date
    · subst hk
      simp [insertGrouped]
    · have hk2 : ¬ date = k := fun h => hk h.symm
      simp only [insertGrouped, if_neg hk, List.map_cons, ih, List.mem_cons]
      by_cases hd : date ∈ rest.map Prod.fst
      · simp [hd, hk2]
      · simp [hd, hk2]

/-- Inserting an item preserves distinctness of the grouping keys. -/
theorem insertGrouped_keys_nodup (date : String) (item : Json)
    (acc : List (String × List Json)) (h : (acc.map Prod.fst).Nodup) :
    ((insertGrouped date item acc).map Prod.fst).Nodup := by
  rw [insertGrouped_keys]
  by_cases hd : date ∈ acc.map Prod.fst
  · simpa [hd] using h
  · rw [if_neg hd]
    refine List.Nodup.append h (List.nodup_singleton _) ?_
    intro x hx hmem
    rcases List.mem_singleton.mp hmem with rfl
    exact hd hx

/-- The grouping loop keeps the keys distinct. -/
theorem groupByDate_keys_nodup :
    ∀ (items : List Json) (acc res : List (String × List Json)),
    groupByDate items acc = some res → (acc.map Prod.fst).Nodup →
    (res.map Prod.fst).Nodup := by
  intro items
  induction items with
  | nil =>
    intro acc res h hacc
    obtain rfl : acc = res := Option.some.inj h
    exact hacc
  | cons item rest ih =>
    intro acc res h hacc
    simp only [groupByDate, Option.bind_eq_some] at h
    obtain ⟨dtxt, _, h2⟩ := h
    exact ih _ _ h2 (insertGrouped_keys_nodup _ _ _ hacc)

/-! Facts about the sort by date. -/

/-- Inserting into a list permutes consing onto it. -/
theorem insertByDate_perm (d : DailyForecast) :
    ∀ l : List DailyForecast, (insertByDate d l).Perm (d :: l) := by
  intro l
  induction l with
  | nil => exact List.Perm.refl _
  | cons x xs ih =>
    simp only [insertByDate]
    cases strLt d.date x.date with
    | true => simp
    | false =>
      simp only [Bool.false_eq_true, if_false]
      exact (ih.cons x).trans (List.Perm.swap d x xs)

/-- The sort is a permutation. -/
theorem sortByDate_perm : ∀ l : List DailyForecast, (sortByDate l).Perm l := by
  intro l
  induction l with
  | nil => exact List.Perm.refl _
  | cons x xs ih => exact (insertByDate_perm x (sortByDate xs)).trans (ih.cons x)

/-- Members of an insertion are the new element or old members. -/
theorem insertByDate_mem {y d : DailyForecast} {l : List DailyForecast}
    (h : y ∈ insertByDate d l) : y = d ∨ y ∈ l := by
  have := (insertByDate_perm d l).mem_iff.mp h
  simpa using this

/-- Insertion preserves the ascending-by-date invariant. -/
theorem insertByDate_pairwise (d : DailyForecast) :
    ∀ l : List DailyForecast, l.Pairwise dateLe →
      (insertByDate d l).Pairwise dateLe := by
  intro l
  induction l with
  | nil => intro _; simp [insertByDate, dateLe]
  | cons x xs ih =>
    intro h
    rcases List.pairwise_cons.mp h with ⟨hx, hxs⟩
    simp only [insertByDate]
    cases hdx : strLt d.date x.date with
    | true =>
      simp only [if_true]
      refine List.pairwise_cons.mpr ⟨?_, h⟩
      intro y hy
      rcases List.mem_cons.mp hy with rfl | hy2
      · exact strLtB_asymm _ _ hdx
      · have hyx : strLt y.date x.date = false := hx y hy2
        cases hyd : strLt y.date d.date with
        | false => exact hyd
        | true => exact absurd (strLtB_trans _ _ _ hyd hdx) (by simp [strLt] at hyx ⊢; exact hyx)
    | false =>
      simp only [Bool.false_eq_true, if_false]
      refine List.pairwise_cons.mpr ⟨?_, ih hxs⟩
      intro y hy
      rcases insertByDate_mem hy with rfl | hy2
      · exact hdx
      · exact hx y hy2

/-- The sorted output is ascending by date. -/
theorem sortByDate_pairwise : ∀ l : List DailyForecast,
    (sortByDate l).Pairwise dateLe := by
  intro l
  induction l with
  | nil => simp [sortByDate]
  | cons x xs ih => exact insertByDate_pairwise x (sortByDate xs) ih

/-! Facts about the per-group aggregation. -/

/-- A successful most_common needs a nonempty input. -/
theorem most_common_ne_nil {l : List String} {m : String}
    (h : most_common l = some m) : l ≠ [] := by
  cases l with
  | nil => cases h
  | cons x xs => exact List.cons_ne_nil x xs

/-- What a successful aggregation of one date group looks like: the
temperatures all extracted, nonempty, and the record fields computed from
them. -/
theorem aggregateGroup_eq_some (k : String) (rs : List Json) (d : DailyForecast)
    (h : aggregateGroup k rs = some d) :
    ∃ temps : List ℚ, traverseOption readingTemp rs = some temps ∧ temps ≠ [] ∧
      d.date = k ∧ d.min_temp = listMin temps ∧ d.max_temp = listMax temps ∧
      d.avg_temp = temps.sum / (temps.length : ℚ) := by
  simp only [aggregateGroup, Option.bind_eq_some] at h
  obtain ⟨temps, ht, descriptions, hdesc, icons, hicons, mcd, hmcd, mci, hmci, heq⟩ := h
  obtain rfl := Option.some.inj heq
  refine ⟨temps, ht, ?_, rfl, rfl, rfl, rfl⟩
  have hdn : descriptions ≠ [] := most_common_ne_nil hmcd
  have hlen1 := traverseOption_length _ rs temps ht
  have hlen2 := traverseOption_length _ rs descriptions hdesc
  intro hnil
  apply hdn
  have : descriptions.length = 0 := by rw [hlen2, ← hlen1, hnil]; rfl
  exact List.eq_nil_of_length_eq_zero this

/-- C1: every DailyForecast produced by get_five_day_forecast satisfies
min_temp ≤ avg_temp ≤ max_temp, because min_temp is the minimum, max_temp
the maximum and avg_temp the arithmetic mean of that day's sample
temperatures. -/
theorem forecast_min_avg_max : ∀ (j : Json) (fd : ForecastData),
    parseForecast j = some fd →
    ∀ d ∈ fd.daily_forecasts, d.min_temp ≤ d.avg_temp ∧ d.avg_temp ≤ d.max_temp := by
  intro j fd h d hd
  simp only [parseForecast, Option.bind_eq_some] at h
  obtain ⟨items, hitems, groups, hgroups, daily, hdaily, city, hcity,
    country, hcountry, heq⟩ := h
  obtain rfl := Option.some.inj heq
  have hd2 : d ∈ daily := (sortByDate_perm daily).mem_iff.mp hd
  obtain ⟨g, hg, hagg⟩ := traverseOption_mem _ groups daily hdaily d hd2
  obtain ⟨temps, ht, hne, _, hmin, hmax, havg⟩ :=
    aggregateGroup_eq_some g.1 g.2 d hagg
  rw [hmin, hmax, havg]
  exact avg_bounds temps hne

/-- Witness for C1: the bounds hold on the first day parsed out of a concrete
forecast response. -/
theorem forecast_min_avg_max_witness :
    dayEx.min_temp ≤ dayEx.avg_temp ∧ dayEx.avg_temp ≤ dayEx.max_temp :=
  forecast_min_avg_max jsonForecastEx fdEx (by decide) dayEx (by decide)

/-- C2: the daily_forecasts sequence produced by get_five_day_forecast has
pairwise-distinct dates and is strictly increasing by date string in sequence
order. -/
theorem forecast_dates_sorted : ∀ (j : Json) (fd : ForecastData),
    parseForecast j = some fd →
    (fd.daily_forecasts.map (fun d => d.date)).Nodup ∧
    fd.daily_forecasts.Pairwise (fun a b => strLt a.date b.date = true) := by
  intro j fd h
  simp only [parseForecast, Option.bind_eq_some] at h
  obtain ⟨items, hitems, groups, hgroups, daily, hdaily, city, hcity,
    country, hcountry, heq⟩ := h
  obtain rfl := Option.some.inj heq
  have hkeys : (groups.map Prod.fst).Nodup :=
    groupByDate_keys_nodup items [] groups hgroups (by simp)
  have hdates : daily.map (fun d => d.date) = groups.map Prod.fst := by
    refine traverseOption_map_eq _ _ _ ?_ groups daily hdaily
    intro g d hgd
    obtain ⟨_, _, _, hdate, _, _, _⟩ := aggregateGroup_eq_some g.1 g.2 d hgd
    exact hdate
  have hnods : ((sortByDate daily).map (fun d => d.date)).Nodup := by
    have hperm := (sortByDate_perm daily).map (fun d => d.date)
    exact hperm.nodup_iff.mpr (hdates ▸ hkeys)
  refine ⟨hnods, ?_⟩
  have hsorted := sortByDate_pairwise daily
  have hne2 : (sortByDate daily).Pairwise (fun a b => a.date ≠ b.date) :=
    List.pairwise_map.mp hnods
  exact (hsorted.and hne2).imp (fun hab => strLt_true_of _ _ hab.1 hab.2)

/-- Witness for C2: distinct, strictly ascending dates on a concrete parse
whose samples arrive out of date order. -/
theorem forecast_dates_sorted_witness :
    (fdEx.daily_forecasts.map (fun d => d.date)).Nodup ∧
    fdEx.daily_forecasts.Pairwise (fun a b => strLt a.date b.date = true) :=
  forecast_dates_sorted jsonForecastEx fdEx (by decide)

/-- C3: the representative description and icon of a date group are the mode
of the group's samples with ties broken by first-encountered value, and the
description is capitalized: descriptions ["cloudy","rainy","cloudy"] yield
"Cloudy" (with icon mode "03d"), and the true tie ["a","b"] yields "A". -/
theorem mode_tiebreak_examples :
    aggregateGroup "2024-01-01"
      [mkReadingJson "2024-01-01 00:00:00" 1 "cloudy" "03d",
       mkReadingJson "2024-01-01 03:00:00" 2 "rainy" "10d",
       mkReadingJson "2024-01-01 06:00:00" 3 "cloudy" "03d"] =
      some { date := "2024-01-01", min_temp := 1, max_temp := 3, avg_temp := 2,
             description := "Cloudy", icon := "03d" } ∧
    aggregateGroup "2024-01-02"
      [mkReadingJson "2024-01-02 00:00:00" 5 "a" "01d",
       mkReadingJson "2024-01-02 03:00:00" 6 "b" "01d"] =
      some { date := "2024-01-02", min_temp := 5, max_temp := 6,
             avg_temp := 11 / 2, description := "A", icon := "01d" } := by
  decide

/-- C7: aggregating a date group with exactly one sample gives
min_temp = max_temp = avg_temp = that sample's temperature. -/
theorem single_sample_aggregation : ∀ (ds dt : String) (t : ℚ) (de ic : String),
    aggregateGroup ds [mkReadingJson dt t de ic] =
      some { date := ds, min_temp := t, max_temp := t, avg_temp := t,
             description := pyCapitalize de, icon := ic } := by
  intro ds dt t de ic
  have h1 : traverseOption readingTemp [mkReadingJson dt t de ic] = some [t] := rfl
  have h2 : traverseOption readingDescription [mkReadingJson dt t de ic] =
      some [de] := rfl
  have h3 : traverseOption readingIcon [mkReadingJson dt t de ic] = some [ic] := rfl
  simp only [aggregateGroup, h1, h2, h3, Option.some_bind, most_common,
    mostCommonAux]
  norm_num [listMin, listMin?, foldMin, listMax, listMax?, foldMax]

/-- C4 counterexample: with min_temp_all = 10, max_temp_all = 30 and
chart_height = 8, a day with avg_temp = 20 lands on row 3, not on the row 4
that the round-based formula of the claim predicts, because the source
truncates with int(). -/
theorem chart_row_round_counterexample :
    pyRound ((20 - 10) / ((30 : ℚ) - 10) * ((chart_height : ℚ) - 1)) = 4 ∧
    scaled_temp 20 10 (30 - 10) = 3 ∧
    scaled_temp 20 10 (30 - 10) ≠ 4 := by
  decide

/-- C4 as amended: the row index is the int()-truncation of the linear
scaling, clamped into [0, chart_height - 1], and the worked example lands on
row 3. -/
theorem chart_row_truncation : ∀ (avg minAll r : ℚ),
    scaled_temp avg minAll r =
      max 0 (min (pyInt ((avg - minAll) / r * ((chart_height : ℚ) - 1)))
        ((chart_height : ℤ) - 1)) ∧
    0 ≤ scaled_temp avg minAll r ∧
    scaled_temp avg minAll r ≤ (chart_height : ℤ) - 1 ∧
    scaled_temp 20 10 (30 - 10) = 3 := by
  intro avg minAll r
  exact ⟨rfl, le_max_left _ _, max_le (by decide) (min_le_right _ _), by decide⟩

/-- C5 counterexample: for day 3 of 5 the source column is the truncated 36,
not the rounded 37 the claim's formula predicts. -/
theorem chart_column_round_counterexample :
    pyRound ((3 : ℚ) / ((5 : ℚ) - 1) * ((chart_width : ℚ) - 1)) = 37 ∧
    column_pos 3 5 = 36 ∧
    column_pos 3 5 ≠ pyRound ((3 : ℚ) / ((5 : ℚ) - 1) * ((chart_width : ℚ) - 1)) := by
  decide

/-- C5 as amended: the column index for day i of n > 1 days is the
int()-truncation of i / (n - 1) * (chart_width - 1), clamped into
[0, chart_width - 1], and is 0 when n = 1. -/
theorem chart_column_truncation : ∀ (i n : ℕ),
    (1 < n → column_pos i n =
      max 0 (min (pyInt ((i : ℚ) / ((n : ℚ) - 1) * ((chart_width : ℚ) - 1)))
        ((chart_width : ℤ) - 1))) ∧
    (n = 1 → column_pos i n = 0) ∧
    0 ≤ column_pos i n ∧ column_pos i n ≤ (chart_width : ℤ) - 1 := by
  intro i n
  refine ⟨?_, ?_, le_max_left _ _, max_le (by decide) (min_le_right _ _)⟩
  · intro h
    simp [column_pos, h]
  · intro h
    subst h
    simp [column_pos]

/-- Witness for C5: the amended formula evaluated at day 3 of 5. -/
theorem chart_column_truncation_witness :
    column_pos 3 5 =
      max 0 (min (pyInt (((3 : ℕ) : ℚ) / (((5 : ℕ) : ℚ) - 1) * ((chart_width : ℚ) - 1)))
        ((chart_width : ℤ) - 1)) :=
  (chart_column_truncation 3 5).1 (by decide)

/-- C6: when the global range max_temp_all - min_temp_all is zero the source
substitutes temp_range = 1, the chart computation still succeeds, and every
day's point lands on the bottom row (scaled row 0). -/
theorem flat_range_bottom_row : ∀ (fd : ForecastData) (m M : ℚ),
    listMin? (fd.daily_forecasts.map (fun d => d.min_temp)) = some m →
    listMax? (fd.daily_forecasts.map (fun d => d.max_temp)) = some M →
    M - m = 0 →
    (∀ d ∈ fd.daily_forecasts, d.min_temp ≤ d.avg_temp ∧ d.avg_temp ≤ d.max_temp) →
    ∃ marks, displayChartData fd = some marks ∧ ∀ p ∈ marks, p.row = 0 := by
  intro fd m M h1 h2 h3 hinv
  have heq : displayChartData fd =
      some (fd.daily_forecasts.enum.map fun p =>
        { row := scaled_temp p.2.avg_temp m 1
          col := column_pos p.1 fd.daily_forecasts.length }) := by
    simp only [displayChartData, h1, h2, Option.some_bind]
    rw [if_pos h3]
  refine ⟨_, heq, ?_⟩
  intro p hp
  simp only [List.mem_map] at hp
  obtain ⟨q, hq, rfl⟩ := hp
  have hqd : q.2 ∈ fd.daily_forecasts := by
    have hm : q.2 ∈ fd.daily_forecasts.enum.map Prod.snd :=
      List.mem_map_of_mem Prod.snd hq
    simpa [List.enum_map_snd] using hm
  have hMm : M = m := by linarith [sub_eq_zero.mp h3]
  have hmin : m ≤ q.2.min_temp :=
    listMin?_le _ m h1 _ (List.mem_map_of_mem _ hqd)
  have hmax : q.2.max_temp ≤ M :=
    le_listMax? _ M h2 _ (List.mem_map_of_mem _ hqd)
  have havg : q.2.avg_temp = m :=
    le_antisymm ((hinv q.2 hqd).2.trans (hMm ▸ hmax)) (hmin.trans (hinv q.2 hqd).1)
  show scaled_temp q.2.avg_temp m 1 = 0
  rw [havg]
  have h0 : (m - m) / (1 : ℚ) * ((chart_height : ℚ) - 1) = 0 := by
    rw [sub_self, zero_div, zero_mul]
  simp only [scaled_temp, h0]
  decide

/-- Witness for C6: a concrete two-day forecast with all temperatures equal. -/
theorem flat_range_bottom_row_witness :
    ∃ marks, displayChartData fdFlat = some marks ∧ ∀ p ∈ marks, p.row = 0 :=
  flat_range_bottom_row fdFlat 10 10 (by decide) (by decide) (by decide) (by decide)

/-- C8: a required field absent from an otherwise-successful response makes
the parser return no result: in general for get_current_weather when
main.temp is missing, and on a concrete forecast response whose sample lacks
main.temp. -/
theorem parse_missing_field_none :
    (∀ (j m : Json), j.get? "main" = some m → m.get? "temp" = none →
      parseCurrentWeather j = none) ∧
    parseForecast jsonForecastMissingTemp = none := by
  constructor
  · intro j m h1 h2
    cases hw : parseCurrentWeather j with
    | none => rfl
    | some w =>
      exfalso
      simp only [parseCurrentWeather, Option.bind_eq_some] at hw
      obtain ⟨city, hcity, country, hcountry, mainJ, hmain, temperature,
        htemp, _⟩ := hw
      obtain rfl : mainJ = m := Option.some.inj (hmain.symm.trans h1)
      rw [h2] at htemp
      simp at htemp
  · decide

/-- Witness for C8: a concrete current-weather response missing main.temp
parses to none. -/
theorem parse_missing_field_none_witness :
    parseCurrentWeather jsonCurrentMissingTemp = none :=
  parse_missing_field_none.1 jsonCurrentMissingTemp mainNoTemp rfl rfl

/-- C9: the icon lookup is total; any code outside the fixed mapping renders
the designated fallback glyph. -/
theorem unknown_icon_fallback : ∀ code : String,
    WEATHER_ICONS.lookup code = none → get_weather_emoji code = "❓" := by
  intro code h
  simp only [get_weather_emoji, h]
  rfl

/-- Witness for C9: the unknown code "99x" maps to the fallback glyph. -/
theorem unknown_icon_fallback_witness : get_weather_emoji "99x" = "❓" :=
  unknown_icon_fallback "99x" rfl

/-- C10: the chart computation of display_forecast fails (the source raises
ValueError in min()) exactly when daily_forecasts is empty, so the renderer
implicitly requires at least one DailyForecast. -/
theorem display_requires_nonempty : ∀ fd : ForecastData,
    (fd.daily_forecasts = [] → displayChartData fd = none) ∧
    (fd.daily_forecasts ≠ [] → (displayChartData fd).isSome = true) := by
  intro fd
  constructor
  · intro h
    simp [displayChartData, h, listMin?]
  · intro h
    obtain ⟨x, xs, hx⟩ := List.exists_cons_of_ne_nil h
    simp [displayChartData, hx, listMin?, listMax?]

/-- Witness for C10: the concrete empty forecast is rejected. -/
theorem display_requires_nonempty_witness :
    displayChartData fdEmpty = none :=
  (display_requires_nonempty fdEmpty).1 rfl
